import Mathlib

/-
Verification of the satchari-survey-form core against its specification.

The embedding covers:
* the exclusive-ranking store (updateRank in src/hooks/useExclusiveRanking.js),
* the completeness validator (validateForm in src/utils/formValidation.js),
* the normalizer and the retrying transport pipeline
  (normalizeFormData / submitForm in src/services/formSubmissionService.js),
* the input sanitizer (sanitizeTextInput in src/utils/sanitization.js).

JavaScript objects keyed by option index are modelled as total functions
from Nat to String, with absent keys identified with the empty string ""
(the code itself treats absent and "" alike: both are falsy, the duplicate
sweep in updateRank never matches them, and normalizeFormData replaces
both by the sentinel "No").
-/

namespace Satchari

/-- Per-question response data: option index to rank label; absent keys are "". -/
abbrev QData := Nat → String

/-- The whole response state: question id to per-question data. -/
abbrev Responses := String → QData

/-- The initial state: useState({}) in the hook, every entry unset. -/
def emptyResponses : Responses := fun _ _ => ""

/-- The six permitted rank labels together with "" (unset), per the spec data model. -/
def rankLabels : List String := ["1", "2", "3", "4", "5", "No", ""]

/-- The numeric rank labels. -/
def numericLabels : List String := ["1", "2", "3", "4", "5"]

/-- updateRank from useExclusiveRanking (src/unnamed/part_002, lines 183-215).
If the new rank is "" the target entry is cleared and nothing else changes.
Otherwise every other option of the same question currently holding exactly
the new rank is reset to "" (the sweep runs for every non-empty rank,
including "No"), and then the target option is set to the new rank. -/
def updateRank (responses : Responses) (qId : String) (optIdx : Nat) (rank : String) :
    Responses :=
  fun q i =>
    if q = qId then
      if rank = "" then
        if i = optIdx then "" else responses q i
      else
        if i = optIdx then rank
        else if responses q i = rank then "" else responses q i
    else responses q i

/-- Exclusivity: within one question each numeric label is held by at most one option. -/
def ExclusiveInv (s : Responses) : Prop :=
  ∀ q l i j, l ∈ numericLabels → i ≠ j → s q i = l → s q j = l → False

/-- States reachable from the empty store by assign (updateRank) calls whose
label respects the RankLabel precondition. -/
inductive Reachable : Responses → Prop where
  | empty : Reachable emptyResponses
  | step (s : Responses) (qId : String) (optIdx : Nat) (rank : String) :
      Reachable s → rank ∈ rankLabels → Reachable (updateRank s qId optIdx rank)

lemma numeric_ne_empty : ∀ l ∈ numericLabels, l ≠ "" := by decide

/-- C1 counterexample: starting from the empty store, assign "No" to option 0 of
question q1 and then "No" to option 1. The claim says both options then hold
"No"; in the code the second call sweeps the first "No" away, so option 0 ends
up at "" and the claimed final state is refuted. -/
theorem no_label_exempt_counterexample :
    ¬ (updateRank (updateRank emptyResponses "q1" 0 "No") "q1" 1 "No" "q1" 0 = "No" ∧
       updateRank (updateRank emptyResponses "q1" 0 "No") "q1" 1 "No" "q1" 1 = "No") := by
  decide

/-- C1 (amended): the exclusivity sweep applies to "No" exactly as to numeric
labels. For distinct options i and j, assigning "No" to i and then to j leaves
i at "", j at "No"; any other option of the same question keeps its label
unless that label was "No" (then it is cleared), and other questions are
untouched. -/
theorem updateRank_no_label_is_exclusive (s : Responses) (q : String) (i j : Nat)
    (hij : i ≠ j) :
    updateRank (updateRank s q i "No") q j "No" q i = "" ∧
    updateRank (updateRank s q i "No") q j "No" q j = "No" ∧
    (∀ k, k ≠ i → k ≠ j →
      updateRank (updateRank s q i "No") q j "No" q k =
        (if s q k = "No" then "" else s q k)) ∧
    (∀ q2, q2 ≠ q → ∀ k, updateRank (updateRank s q i "No") q j "No" q2 k = s q2 k) := by
  refine ⟨?_, ?_, ?_, ?_⟩
  · simp [updateRank, hij, Ne.symm hij]
  · simp [updateRank]
  · intro k hki hkj
    by_cases hv : s q k = "No" <;> simp [updateRank, hki, hkj, hv]
  · intro q2 hq2 k
    simp [updateRank, hq2]

/-- Witness for the amended C1 theorem at a concrete state: option 2 of q1
already holds "No"; after assigning "No" to option 0 and then option 1,
options 0 and 2 are cleared and option 1 holds "No". -/
theorem updateRank_no_label_is_exclusive_witness :
    updateRank (updateRank (updateRank emptyResponses "q1" 2 "No") "q1" 0 "No") "q1" 1 "No" "q1" 0 = "" ∧
    updateRank (updateRank (updateRank emptyResponses "q1" 2 "No") "q1" 0 "No") "q1" 1 "No" "q1" 1 = "No" ∧
    updateRank (updateRank (updateRank emptyResponses "q1" 2 "No") "q1" 0 "No") "q1" 1 "No" "q1" 2 = "" := by
  have h := updateRank_no_label_is_exclusive
    (updateRank emptyResponses "q1" 2 "No") "q1" 0 1 (by decide)
  refine ⟨h.1, h.2.1, ?_⟩
  have h2 := h.2.2.1 2 (by decide) (by decide)
  simpa using h2

/-- C2: numeric exclusivity is an invariant of every reachable store state, and
assigning the same numeric label "3" to two distinct options in sequence leaves
the first at "" and the second at "3". -/
theorem exclusivity_invariant :
    (∀ s, Reachable s → ExclusiveInv s) ∧
    (∀ (s : Responses) (q : String) (i j : Nat), i ≠ j →
      updateRank (updateRank s q i "3") q j "3" q i = "" ∧
      updateRank (updateRank s q i "3") q j "3" q j = "3") := by
  constructor
  · intro s hs
    induction hs with
    | empty =>
      intro q l i j hl _ h1 _
      exact numeric_ne_empty l hl h1.symm
    | step s qId optIdx rank _ _ ih =>
      intro q l i j hl hij h1 h2
      have hlne : l ≠ "" := numeric_ne_empty l hl
      by_cases hq : q = qId
      · subst hq
        by_cases hr : rank = ""
        · simp only [updateRank] at h1 h2
          simp only [if_pos rfl, if_pos hr] at h1 h2
          by_cases hi : i = optIdx
          · rw [if_pos hi] at h1; exact hlne h1.symm
          · rw [if_neg hi] at h1
            by_cases hj : j = optIdx
            · rw [if_pos hj] at h2; exact hlne h2.symm
            · rw [if_neg hj] at h2; exact ih q l i j hl hij h1 h2
        · simp only [updateRank] at h1 h2
          simp only [if_pos rfl, if_neg hr] at h1 h2
          by_cases hi : i = optIdx
          · rw [if_pos hi] at h1
            have hj : ¬ j = optIdx := fun hh => hij (hi.trans hh.symm)
            rw [if_neg hj] at h2
            by_cases hsj : s q j = rank
            · rw [if_pos hsj] at h2; exact hlne h2.symm
            · rw [if_neg hsj] at h2; exact hsj (h2.trans h1.symm)
          · rw [if_neg hi] at h1
            by_cases hj : j = optIdx
            · rw [if_pos hj] at h2
              by_cases hsi : s q i = rank
              · rw [if_pos hsi] at h1; exact hlne h1.symm
              · rw [if_neg hsi] at h1; exact hsi (h1.trans h2.symm)
            · rw [if_neg hj] at h2
              by_cases hsi : s q i = rank
              · rw [if_pos hsi] at h1; exact hlne h1.symm
              · rw [if_neg hsi] at h1
                by_cases hsj : s q j = rank
                · rw [if_pos hsj] at h2; exact hlne h2.symm
                · rw [if_neg hsj] at h2; exact ih q l i j hl hij h1 h2
      · simp only [updateRank] at h1 h2
        rw [if_neg hq] at h1 h2
        exact ih q l i j hl hij h1 h2
  · intro s q i j hij
    constructor
    · simp [updateRank, hij, Ne.symm hij]
    · simp [updateRank]

/-- Witness for C2: the one-step state assigning "3" to option 0 of q1 is
reachable and exclusive (so options 0 and 1 cannot both hold "3"), and the
concrete double assignment of "3" to options 0 then 1 yields "" and "3". -/
theorem exclusivity_invariant_witness :
    (¬ (updateRank emptyResponses "q1" 0 "3" "q1" 0 = "3" ∧
        updateRank emptyResponses "q1" 0 "3" "q1" 1 = "3")) ∧
    updateRank (updateRank emptyResponses "q1" 0 "3") "q1" 1 "3" "q1" 0 = "" ∧
    updateRank (updateRank emptyResponses "q1" 0 "3") "q1" 1 "3" "q1" 1 = "3" := by
  refine ⟨?_, (exclusivity_invariant.2 emptyResponses "q1" 0 1 (by decide)).1,
    (exclusivity_invariant.2 emptyResponses "q1" 0 1 (by decide)).2⟩
  intro h
  exact exclusivity_invariant.1 (updateRank emptyResponses "q1" 0 "3")
    (Reachable.step emptyResponses "q1" 0 "3" Reachable.empty (by decide))
    "q1" "3" 0 1 (by decide) (by decide) h.1 h.2

/-- C9: updateRank is idempotent: applying the same assignment twice in a row
yields the same state as applying it once (for every label, in particular for
every label in RankLabel; no range restriction on the option index is needed). -/
theorem updateRank_idempotent (s : Responses) (q : String) (i : Nat) (label : String)
    (_hl : label ∈ rankLabels) :
    updateRank (updateRank s q i label) q i label = updateRank s q i label := by
  funext q2 k
  by_cases hq : q2 = q
  · subst hq
    by_cases hlab : label = ""
    · subst hlab
      by_cases hk : k = i <;> simp [updateRank, hk]
    · by_cases hk : k = i
      · subst hk
        simp [updateRank, hlab]
      · by_cases hv : s q2 k = label <;> simp [updateRank, hk, hlab, hv]
  · simp [updateRank, hq]

/-- Witness for C9 at a concrete input: assigning "2" to option 0 of q1 twice
from the empty store equals assigning it once. -/
theorem updateRank_idempotent_witness :
    updateRank (updateRank (updateRank emptyResponses "q1" 0 "2") "q1" 0 "2") "q1" 0 "2" =
      updateRank (updateRank emptyResponses "q1" 0 "2") "q1" 0 "2" := by
  exact updateRank_idempotent (updateRank emptyResponses "q1" 0 "2") "q1" 0 "2" (by decide)

/-- A question of the survey: id, display text, ordered option texts.
The optional section label plays no role in the claims. -/
structure Question where
  id : String
  text : String
  options : List String
deriving DecidableEq

/-- Validation errors produced by validateForm: a question error carries the
question id, its index and a message; the final-comment error only a message. -/
inductive VError where
  | question (qId : String) (qIdx : Nat) (message : String) : VError
  | finalComment (message : String) : VError
deriving DecidableEq

/-- Result record of validateForm. -/
structure ValidationResult where
  isValid : Bool
  errors : List VError
deriving DecidableEq

/-- hasAnyRank from src/src/utils/formValidation.js: true iff some option of
the question holds a truthy (non-empty) label. The JavaScript iterates the
values present in the response object; here the object is a total function
over option indices with absent entries equal to "", so the scan runs over
the option-index range of the question. -/
def hasAnyRank (qData : QData) (numOptions : Nat) : Bool :=
  (List.range numOptions).any fun i => qData i != ""

/-- Message attached to the final-comment validation error. -/
def finalCommentErrorMessage : String :=
  "Final Comments: Please share your recommendations"

/-- validateForm from src/src/utils/formValidation.js (lines 11-50): one
question error per question without any rank, in question order, then the
final-comment error when the comment is empty or whitespace; isValid iff no
errors. The JavaScript guard (not finalComment or not finalComment.trim())
holds exactly when the trimmed comment is empty. -/
def validateForm (questions : List Question) (responses : Responses)
    (finalComment : String) : ValidationResult :=
  let qErrors := questions.enum.filterMap fun p =>
    if hasAnyRank (responses p.2.id) p.2.options.length then none
    else some (VError.question p.2.id p.1
      ("Question " ++ toString (p.1 + 1) ++ ": " ++ p.2.text.take 50 ++ "..."))
  let errors :=
    if finalComment.trim = "" then qErrors ++ [VError.finalComment finalCommentErrorMessage]
    else qErrors
  ⟨errors.length == 0, errors⟩

/-- Spec-side completeness policy: a question is answered iff any of its
options holds a non-empty label (a single "No" suffices). -/
def answeredSpec (q : Question) (responses : Responses) : Prop :=
  ∃ i ∈ Finset.range q.options.length, responses q.id i ≠ ""

instance (q : Question) (responses : Responses) : Decidable (answeredSpec q responses) :=
  Finset.decidableExistsAndFinset

lemma hasAnyRank_iff_answered (q : Question) (responses : Responses) :
    hasAnyRank (responses q.id) q.options.length = true ↔ answeredSpec q responses := by
  simp [hasAnyRank, answeredSpec, List.any_eq_true, List.mem_range]

lemma filterMap_congr_mem {α β : Type} (l : List α) (f g : α → Option β)
    (h : ∀ a ∈ l, f a = g a) : l.filterMap f = l.filterMap g := by
  induction l with
  | nil => rfl
  | cons x xs ih =>
    rw [List.filterMap_cons, List.filterMap_cons, h x (List.mem_cons_self x xs),
      ih fun a ha => h a (List.mem_cons_of_mem x ha)]

/-- C3: validateForm implements the completeness policy: isValid holds iff the
error list is empty, and the error list consists of one question error per
unanswered question (answered means some option holds a non-empty label), in
question order, each carrying the first 50 characters of the question text,
with the final-comment error appended last exactly when the trimmed comment is
empty. -/
theorem validateForm_completeness_policy (questions : List Question)
    (responses : Responses) (finalComment : String) :
    ((validateForm questions responses finalComment).isValid = true ↔
      (validateForm questions responses finalComment).errors = []) ∧
    (validateForm questions responses finalComment).errors =
      (questions.enum.filterMap fun p =>
        if answeredSpec p.2 responses then none
        else some (VError.question p.2.id p.1
          ("Question " ++ toString (p.1 + 1) ++ ": " ++ p.2.text.take 50 ++ "..."))) ++
      (if finalComment.trim = "" then [VError.finalComment finalCommentErrorMessage]
       else []) := by
  have hfm : (questions.enum.filterMap fun p =>
      if hasAnyRank (responses p.2.id) p.2.options.length then none
      else some (VError.question p.2.id p.1
        ("Question " ++ toString (p.1 + 1) ++ ": " ++ p.2.text.take 50 ++ "..."))) =
      (questions.enum.filterMap fun p =>
        if answeredSpec p.2 responses then none
        else some (VError.question p.2.id p.1
          ("Question " ++ toString (p.1 + 1) ++ ": " ++ p.2.text.take 50 ++ "..."))) := by
    refine filterMap_congr_mem _ _ _ fun p _ => ?_
    by_cases ha : answeredSpec p.2 responses
    · rw [if_pos ((hasAnyRank_iff_answered p.2 responses).mpr ha), if_pos ha]
    · rw [if_neg fun hb => ha ((hasAnyRank_iff_answered p.2 responses).mp hb), if_neg ha]
  constructor
  · rw [show (validateForm questions responses finalComment).isValid =
        ((validateForm questions responses finalComment).errors.length == 0) from rfl]
    simp [List.length_eq_zero]
  · show (if finalComment.trim = "" then
        _ ++ [VError.finalComment finalCommentErrorMessage] else _) = _
    by_cases hc : finalComment.trim = ""
    · rw [if_pos hc, if_pos hc, hfm]
    · rw [if_neg hc, if_neg hc, hfm, List.append_nil]

/-- The wire payload built by normalizeFormData. The responses component keeps
the question order of the input list; each entry pairs a question id with the
labels of its option indices 0..N-1. The otherText map is kept as an
association list. -/
structure SubmissionPayload where
  timestamp : String
  responses : List (String × List String)
  otherText : List (String × String)
  finalComment : String
deriving DecidableEq

/-- normalizeFormData from src/unnamed/part_002 (lines 29-51). For every
question and every option index 0..N-1 the output value is the current label
when truthy and the sentinel "No" otherwise; otherText and finalComment pass
through. The JavaScript attaches new Date().toISOString() as the timestamp;
the current instant is taken as a parameter here. -/
def normalizeFormData (questions : List Question) (responses : Responses)
    (otherText : List (String × String)) (finalComment : String)
    (timestamp : String) : SubmissionPayload :=
  { timestamp := timestamp
    responses := questions.map fun q =>
      (q.id, (List.range q.options.length).map fun i =>
        if responses q.id i = "" then "No" else responses q.id i)
    otherText := otherText
    finalComment := finalComment }

/-- C4: normalization achieves total coverage: every question contributes an
entry with one label per option index, equal to the assigned label when that
label is non-empty and to the sentinel "No" otherwise; no label in the payload
is ""; otherText and finalComment pass through unchanged. -/
theorem normalizeFormData_total_coverage (questions : List Question)
    (responses : Responses) (otherText : List (String × String))
    (finalComment timestamp : String) :
    (∀ q ∈ questions, ∃ labels,
      (q.id, labels) ∈ (normalizeFormData questions responses otherText
          finalComment timestamp).responses ∧
      labels.length = q.options.length ∧
      ∀ i, (hi : i < labels.length) →
        labels.get ⟨i, hi⟩ =
          (if responses q.id i = "" then "No" else responses q.id i)) ∧
    (∀ pr ∈ (normalizeFormData questions responses otherText
        finalComment timestamp).responses, ∀ v ∈ pr.2, v ≠ "") ∧
    (normalizeFormData questions responses otherText finalComment
      timestamp).otherText = otherText ∧
    (normalizeFormData questions responses otherText finalComment
      timestamp).finalComment = finalComment := by
  refine ⟨?_, ?_, rfl, rfl⟩
  · intro q hq
    refine ⟨(List.range q.options.length).map fun i =>
      if responses q.id i = "" then "No" else responses q.id i, ?_, by simp, ?_⟩
    · exact List.mem_map.mpr ⟨q, hq, rfl⟩
    · intro i hi
      simp
  · intro pr hpr v hv
    obtain ⟨q, _, rfl⟩ := List.mem_map.mp hpr
    obtain ⟨i, _, rfl⟩ := List.mem_map.mp hv
    by_cases hz : responses q.id i = ""
    · simp [hz]
    · simp [hz]

/-- Witness for C4 with one two-option question, option 0 ranked "1": the
payload entry for q1 is the labels list of length 2, and otherText passes
through. -/
theorem normalizeFormData_total_coverage_witness :
    (∃ labels,
      ("q1", labels) ∈ (normalizeFormData [Question.mk "q1" "t" ["A", "B"]]
          (updateRank emptyResponses "q1" 0 "1") [("q1", "x")] "c" "ts").responses ∧
      labels.length = 2) ∧
    (normalizeFormData [Question.mk "q1" "t" ["A", "B"]]
      (updateRank emptyResponses "q1" 0 "1") [("q1", "x")] "c" "ts").otherText =
      [("q1", "x")] := by
  have h := normalizeFormData_total_coverage [Question.mk "q1" "t" ["A", "B"]]
    (updateRank emptyResponses "q1" 0 "1") [("q1", "x")] "c" "ts"
  refine ⟨?_, h.2.2.1⟩
  obtain ⟨labels, hmem, hlen, _⟩ :=
    h.1 (Question.mk "q1" "t" ["A", "B"]) (List.mem_singleton.mpr rfl)
  exact ⟨labels, hmem, hlen⟩

/-- A raw failure signal of one network attempt: the error name (AbortError
when the timeout cancellation fired), its message, and whether it is a
TypeError (the fetch connectivity failure). -/
structure JsError where
  name : String
  message : String
  isTypeError : Bool
deriving DecidableEq

/-- The classified message computed in the catch block of submitForm:
AbortError becomes the timeout message, TypeError the network message, and
anything else keeps its raw message. -/
def classifyMessage (e : JsError) (timeout : Nat) : String :=
  if e.name = "AbortError" then "Request timeout after " ++ toString timeout ++ "ms"
  else if e.isTypeError then "Network error - unable to reach server"
  else e.message

/-- One invocation of the onRetry callback: attempt number, classified error
message, and the delay argument. -/
structure RetryEvent where
  attempt : Nat
  message : String
  delayMs : Nat
deriving DecidableEq

/-- Final outcome of submitForm: resolved successfully, or threw with the
given message. -/
inductive SubmitOutcome where
  | success : SubmitOutcome
  | thrown (message : String) : SubmitOutcome
deriving DecidableEq

/-- Observable trace of one submitForm call: how many network attempts were
issued, the onRetry invocations in order, the backoff suspensions awaited in
order, and the outcome. -/
structure SubmitTrace where
  attemptsMade : Nat
  events : List RetryEvent
  delays : List Nat
  outcome : SubmitOutcome
deriving DecidableEq

/-- The aggregate error thrown after the loop:
"Form submission failed after N attempts: " followed by the raw message of the
last failure ("Unknown error" when there was none or it was empty). -/
def aggregateMessage (maxRetries : Nat) (lastRaw : Option String) : String :=
  "Form submission failed after " ++ toString maxRetries ++ " attempts: " ++
    (match lastRaw with
     | some m => if m = "" then "Unknown error" else m
     | none => "Unknown error")

/-- The retry loop of submitForm (src/unnamed/part_002, lines 86-133), one
call per attempt number starting at the given attempt. The transport oracle
returns none when the fetch of that attempt completes without an exception and
some error otherwise. On a non-final failure the loop records
onRetry(attempt, classified, initialRetryDelay * attempt), awaits that delay
and recurses; on the final attempt it records onRetry(attempt, classified, 0)
and the aggregate error is thrown after the loop. -/
def runAttempts (transport : Nat → Option JsError)
    (timeout initialRetryDelay maxRetries attempt : Nat)
    (lastRaw : Option String) : SubmitTrace :=
  if maxRetries < attempt then
    ⟨0, [], [], SubmitOutcome.thrown (aggregateMessage maxRetries lastRaw)⟩
  else
    match transport attempt with
    | none => ⟨1, [], [], SubmitOutcome.success⟩
    | some e =>
      if attempt = maxRetries then
        ⟨1, [⟨attempt, classifyMessage e timeout, 0⟩], [],
          SubmitOutcome.thrown (aggregateMessage maxRetries (some e.message))⟩
      else
        let rest := runAttempts transport timeout initialRetryDelay maxRetries
          (attempt + 1) (some e.message)
        ⟨1 + rest.attemptsMade,
          ⟨attempt, classifyMessage e timeout, initialRetryDelay * attempt⟩ :: rest.events,
          (initialRetryDelay * attempt) :: rest.delays,
          rest.outcome⟩
termination_by maxRetries + 1 - attempt
decreasing_by omega

/-- submitForm from src/unnamed/part_002 (lines 72-139): an empty (or, in the
JavaScript, undefined — modelled as empty) endpoint URL throws the
configuration error before any attempt; otherwise the retry loop runs from
attempt 1. Defaults in the source: maxRetries 3, timeout 5000,
initialRetryDelay 1000. -/
def submitForm (transport : Nat → Option JsError) (scriptUrl : String)
    (maxRetries timeout initialRetryDelay : Nat) : SubmitTrace :=
  if scriptUrl = "" then
    ⟨0, [], [], SubmitOutcome.thrown "Google Apps Script URL is not configured"⟩
  else
    runAttempts transport timeout initialRetryDelay maxRetries 1 none

/-- C5: with an empty or undefined endpoint, submitForm throws the
configuration error with zero network attempts, no onRetry invocation and no
backoff delay, for every transport and option set. -/
theorem submitForm_missing_endpoint_fails_fast (transport : Nat → Option JsError)
    (maxRetries timeout initialRetryDelay : Nat) :
    submitForm transport "" maxRetries timeout initialRetryDelay =
      ⟨0, [], [], SubmitOutcome.thrown "Google Apps Script URL is not configured"⟩ := by
  simp [submitForm]

lemma runAttempts_eq_of_gt (transport : Nat → Option JsError)
    (timeout d maxRetries attempt : Nat) (lastRaw : Option String)
    (h : maxRetries < attempt) :
    runAttempts transport timeout d maxRetries attempt lastRaw =
      ⟨0, [], [], SubmitOutcome.thrown (aggregateMessage maxRetries lastRaw)⟩ := by
  unfold runAttempts
  rw [if_pos h]

lemma runAttempts_eq_of_success (transport : Nat → Option JsError)
    (timeout d maxRetries attempt : Nat) (lastRaw : Option String)
    (h : ¬ maxRetries < attempt) (htr : transport attempt = none) :
    runAttempts transport timeout d maxRetries attempt lastRaw =
      ⟨1, [], [], SubmitOutcome.success⟩ := by
  unfold runAttempts
  rw [if_neg h, htr]

lemma runAttempts_eq_of_fail_last (transport : Nat → Option JsError)
    (timeout d maxRetries attempt : Nat) (lastRaw : Option String) (e : JsError)
    (h : ¬ maxRetries < attempt) (heq : attempt = maxRetries)
    (htr : transport attempt = some e) :
    runAttempts transport timeout d maxRetries attempt lastRaw =
      ⟨1, [⟨attempt, classifyMessage e timeout, 0⟩], [],
        SubmitOutcome.thrown (aggregateMessage maxRetries (some e.message))⟩ := by
  unfold runAttempts
  rw [if_neg h, htr]
  simp [heq]

lemma runAttempts_eq_of_fail_cont (transport : Nat → Option JsError)
    (timeout d maxRetries attempt : Nat) (lastRaw : Option String) (e : JsError)
    (h : ¬ maxRetries < attempt) (hne : attempt ≠ maxRetries)
    (htr : transport attempt = some e) :
    runAttempts transport timeout d maxRetries attempt lastRaw =
      ⟨1 + (runAttempts transport timeout d maxRetries (attempt + 1)
          (some e.message)).attemptsMade,
        ⟨attempt, classifyMessage e timeout, d * attempt⟩ ::
          (runAttempts transport timeout d maxRetries (attempt + 1)
            (some e.message)).events,
        (d * attempt) ::
          (runAttempts transport timeout d maxRetries (attempt + 1)
            (some e.message)).delays,
        (runAttempts transport timeout d maxRetries (attempt + 1)
          (some e.message)).outcome⟩ := by
  conv_lhs => unfold runAttempts
  rw [if_neg h, htr]
  simp [hne]

lemma runAttempts_delay_linear (transport : Nat → Option JsError)
    (timeout d maxRetries : Nat) :
    ∀ n attempt lastRaw, maxRetries + 1 - attempt = n →
      ∀ ev ∈ (runAttempts transport timeout d maxRetries attempt lastRaw).events,
        ev.attempt < maxRetries → ev.delayMs = d * ev.attempt := by
  intro n
  induction n with
  | zero =>
    intro attempt lastRaw hn ev hev _
    rw [runAttempts_eq_of_gt transport timeout d maxRetries attempt lastRaw
      (by omega)] at hev
    simp at hev
  | succ n ih =>
    intro attempt lastRaw hn ev hev hlt
    by_cases hgt : maxRetries < attempt
    · rw [runAttempts_eq_of_gt transport timeout d maxRetries attempt lastRaw hgt] at hev
      simp at hev
    · cases htr : transport attempt with
      | none =>
        rw [runAttempts_eq_of_success transport timeout d maxRetries attempt lastRaw
          hgt htr] at hev
        simp at hev
      | some e =>
        by_cases heq : attempt = maxRetries
        · rw [runAttempts_eq_of_fail_last transport timeout d maxRetries attempt lastRaw
            e hgt heq htr] at hev
          simp at hev
          rw [hev] at hlt
          simp at hlt
          exact absurd hlt (by omega)
        · rw [runAttempts_eq_of_fail_cont transport timeout d maxRetries attempt lastRaw
            e hgt heq htr] at hev
          simp only [List.mem_cons] at hev
          rcases hev with hev | hev
          · rw [hev]
          · exact ih (attempt + 1) (some e.message) (by omega) ev hev hlt

lemma getLast?_cons_eq_of_eq_some {α : Type} (z : α) (l : List α) (y : α)
    (h : l.getLast? = some y) : (z :: l).getLast? = some y := by
  cases l with
  | nil => simp at h
  | cons x xs => rw [List.getLast?_cons_cons]; exact h

lemma runAttempts_all_fail (err : Nat → JsError) (timeout d maxRetries : Nat) :
    ∀ n attempt lastRaw, maxRetries + 1 - attempt = n → attempt ≤ maxRetries →
      (runAttempts (fun k => some (err k)) timeout d maxRetries attempt
          lastRaw).attemptsMade = maxRetries + 1 - attempt ∧
      (runAttempts (fun k => some (err k)) timeout d maxRetries attempt
          lastRaw).events.getLast? =
        some ⟨maxRetries, classifyMessage (err maxRetries) timeout, 0⟩ ∧
      (runAttempts (fun k => some (err k)) timeout d maxRetries attempt
          lastRaw).outcome =
        SubmitOutcome.thrown (aggregateMessage maxRetries
          (some (err maxRetries).message)) := by
  intro n
  induction n with
  | zero =>
    intro attempt lastRaw hn hle
    omega
  | succ n ih =>
    intro attempt lastRaw hn hle
    by_cases heq : attempt = maxRetries
    · rw [runAttempts_eq_of_fail_last (fun k => some (err k)) timeout d maxRetries
        attempt lastRaw (err attempt) (by omega) heq rfl]
      subst heq
      refine ⟨by simp, by simp, rfl⟩
    · rw [runAttempts_eq_of_fail_cont (fun k => some (err k)) timeout d maxRetries
        attempt lastRaw (err attempt) (by omega) heq rfl]
      obtain ⟨ha, hb, hc⟩ := ih (attempt + 1) (some (err attempt).message) (by omega)
        (by omega)
      exact ⟨by simp [ha]; omega, getLast?_cons_eq_of_eq_some _ _ _ hb, by simp [hc]⟩

/-- C6: the retry backoff is linear: every onRetry invocation for a non-final
attempt k carries delay initialRetryDelay * k, for every transport, endpoint
and options; and for the concrete transport failing on attempts 1 and 2 and
succeeding on attempt 3, with maxRetries 3 and initialRetryDelay 1000, onRetry
fires exactly twice with delays 1000 and 2000, the delays are awaited in that
order, three attempts are made and the call resolves successfully. -/
theorem submitForm_linear_backoff :
    (∀ (transport : Nat → Option JsError) (url : String)
      (maxRetries timeout d : Nat), url ≠ "" →
      ∀ ev ∈ (submitForm transport url maxRetries timeout d).events,
        ev.attempt < maxRetries → ev.delayMs = d * ev.attempt) ∧
    submitForm (fun k => if k ≤ 2 then some ⟨"Error", "boom", false⟩ else none)
        "https://example.com" 3 5000 1000 =
      ⟨3, [⟨1, "boom", 1000⟩, ⟨2, "boom", 2000⟩], [1000, 2000],
        SubmitOutcome.success⟩ := by
  constructor
  · intro transport url maxRetries timeout d hurl ev hev hlt
    rw [submitForm, if_neg hurl] at hev
    exact runAttempts_delay_linear transport timeout d maxRetries
      (maxRetries + 1 - 1) 1 none rfl ev hev hlt
  · rw [submitForm, if_neg (by decide)]
    rw [runAttempts_eq_of_fail_cont _ 5000 1000 3 1 none ⟨"Error", "boom", false⟩
      (by omega) (by omega) (by simp)]
    rw [runAttempts_eq_of_fail_cont _ 5000 1000 3 2 _ ⟨"Error", "boom", false⟩
      (by omega) (by omega) (by simp)]
    rw [runAttempts_eq_of_success _ 5000 1000 3 3 _ (by omega) (by simp)]
    simp [classifyMessage]

/-- Witness for C6: the first onRetry invocation of the concrete
fail-fail-succeed scenario is in the event trace with a delay equal to
1000 times its attempt number, and the whole concrete trace is as stated. -/
theorem submitForm_linear_backoff_witness :
    (RetryEvent.mk 1 "boom" 1000).delayMs = 1000 * (RetryEvent.mk 1 "boom" 1000).attempt ∧
    submitForm (fun k => if k ≤ 2 then some ⟨"Error", "boom", false⟩ else none)
        "https://example.com" 3 5000 1000 =
      ⟨3, [⟨1, "boom", 1000⟩, ⟨2, "boom", 2000⟩], [1000, 2000],
        SubmitOutcome.success⟩ := by
  refine ⟨?_, submitForm_linear_backoff.2⟩
  have hmem : (RetryEvent.mk 1 "boom" 1000) ∈
      (submitForm (fun k => if k ≤ 2 then some ⟨"Error", "boom", false⟩ else none)
        "https://example.com" 3 5000 1000).events := by
    rw [submitForm_linear_backoff.2]
    simp
  exact submitForm_linear_backoff.1
    (fun k => if k ≤ 2 then some ⟨"Error", "boom", false⟩ else none)
    "https://example.com" 3 5000 1000 (by decide)
    (RetryEvent.mk 1 "boom" 1000) hmem (by decide)

/-- C7: for a transport failing on every attempt (with at least one attempt
allowed and a non-empty endpoint), submitForm makes exactly maxRetries
attempts, the final onRetry invocation carries the final attempt number and
delay 0, and the single thrown aggregate error names the attempt count and
embeds the raw message of the last failure. -/
theorem submitForm_exhaustion (err : Nat → JsError) (url : String)
    (maxRetries timeout d : Nat) (hurl : url ≠ "") (hmr : 1 ≤ maxRetries) :
    (submitForm (fun k => some (err k)) url maxRetries timeout d).attemptsMade =
      maxRetries ∧
    (submitForm (fun k => some (err k)) url maxRetries timeout d).events.getLast? =
      some ⟨maxRetries, classifyMessage (err maxRetries) timeout, 0⟩ ∧
    (submitForm (fun k => some (err k)) url maxRetries timeout d).outcome =
      SubmitOutcome.thrown ("Form submission failed after " ++ toString maxRetries ++
        " attempts: " ++
        (if (err maxRetries).message = "" then "Unknown error"
         else (err maxRetries).message)) := by
  have h := runAttempts_all_fail err timeout d maxRetries (maxRetries + 1 - 1) 1 none
    rfl hmr
  rw [submitForm, if_neg hurl]
  refine ⟨by rw [h.1]; omega, h.2.1, by rw [h.2.2]; rfl⟩

/-- Witness for C7: a transport that always fails with the raw message "boom",
maxRetries 3: three attempts, last onRetry event (3, "boom", 0), and the
aggregate error message embeds the count 3 and "boom". -/
theorem submitForm_exhaustion_witness :
    (submitForm (fun _ => some ⟨"Error", "boom", false⟩) "u" 3 5 10).attemptsMade = 3 ∧
    (submitForm (fun _ => some ⟨"Error", "boom", false⟩) "u" 3 5 10).events.getLast? =
      some ⟨3, "boom", 0⟩ ∧
    (submitForm (fun _ => some ⟨"Error", "boom", false⟩) "u" 3 5 10).outcome =
      SubmitOutcome.thrown "Form submission failed after 3 attempts: boom" := by
  have h := submitForm_exhaustion (fun _ => ⟨"Error", "boom", false⟩) "u" 3 5 10
    (by decide) (by decide)
  refine ⟨h.1, ?_, ?_⟩
  · rw [h.2.1]
    rfl
  · rw [h.2.2]
    rfl

/-- A JavaScript input value for the sanitizer: a string, or one of the
non-string cases (null, undefined, anything else), which the guard
(not text, or typeof text different from string) maps to "". -/
inductive JsInput where
  | str (s : String) : JsInput
  | nullValue : JsInput
  | undefinedValue : JsInput
  | otherValue : JsInput
deriving DecidableEq

/-- Whitespace removed by String.prototype.trim (the ASCII part: space, tab,
newline, carriage return, vertical tab, form feed). -/
def jsWhitespaceChar (c : Char) : Bool :=
  c = ' ' || c = '\t' || c = '\n' || c = '\r' || c = '\x0B' || c = '\x0C'

/-- Leading and trailing whitespace removal on the character list. -/
def trimChars (s : List Char) : List Char :=
  ((s.dropWhile jsWhitespaceChar).reverse.dropWhile jsWhitespaceChar).reverse

/-- The alternatives of the removal regex, in order:
script tag opening, iframe tag opening, javascript scheme, onerror attribute. -/
def dangerousPatterns : List (List Char) :=
  [['<', 's', 'c', 'r', 'i', 'p', 't'],
   ['<', 'i', 'f', 'r', 'a', 'm', 'e'],
   ['j', 'a', 'v', 'a', 's', 'c', 'r', 'i', 'p', 't', ':'],
   ['o', 'n', 'e', 'r', 'r', 'o', 'r', '=']]

/-- Case-insensitive pattern match at the head of the input: returns the
remainder after the match (the i regex flag, lowered comparison). -/
def dropCaselessMatch : List Char → List Char → Option (List Char)
  | [], s => some s
  | _ :: _, [] => none
  | p :: ps, c :: cs =>
    if p.toLower = c.toLower then dropCaselessMatch ps cs else none

/-- First regex alternative matching at the head of the input, with the
remainder of the input after the match. -/
def findDangerous (s : List Char) : Option (List Char) :=
  dangerousPatterns.findSome? fun p => dropCaselessMatch p s

/-- One global left-to-right replace pass of the regex with the empty string:
at each position, if an alternative matches it is deleted and scanning resumes
after the match; otherwise the character is kept. The fuel argument (called
with the input length) only serves structural termination: every step consumes
at least one character. -/
def stripDangerousAux : Nat → List Char → List Char
  | 0, _ => []
  | _ + 1, [] => []
  | fuel + 1, c :: rest =>
    match findDangerous (c :: rest) with
    | some rest2 => stripDangerousAux fuel rest2
    | none => c :: stripDangerousAux fuel rest

/-- The replace call of sanitizeTextInput. -/
def stripDangerous (s : List Char) : List Char :=
  stripDangerousAux s.length s

/-- sanitizeTextInput from src/unnamed/part_001 (lines 18-27): falsy or
non-string input yields ""; otherwise trim, then slice to maxLength, then
delete the dangerous patterns case-insensitively in one global pass.
The source default maxLength is 5000 (10000 via sanitizeCommentInput). -/
def sanitizeTextInput (text : JsInput) (maxLength : Nat) : String :=
  match text with
  | JsInput.str s =>
    if s = "" then ""
    else String.mk (stripDangerous ((trimChars s.data).take maxLength))
  | _ => ""

/-- Boolean head-match of a character pattern (case-sensitive). -/
def startsWithChars : List Char → List Char → Bool
  | [], _ => true
  | _ :: _, [] => false
  | p :: ps, c :: cs => p = c && startsWithChars ps cs

/-- Boolean substring occurrence of a character pattern. -/
def containsChars (pat : List Char) : List Char → Bool
  | [] => startsWithChars pat []
  | c :: cs => startsWithChars pat (c :: cs) || containsChars pat cs

lemma dropCaselessMatch_length_le :
    ∀ (p s r : List Char), dropCaselessMatch p s = some r → r.length ≤ s.length := by
  intro p
  induction p with
  | nil =>
    intro s r h
    rw [dropCaselessMatch] at h
    cases h
    exact le_refl _
  | cons x xs ih =>
    intro s r h
    cases s with
    | nil => exact absurd h (by rw [dropCaselessMatch]; exact Option.noConfusion)
    | cons c cs =>
      rw [dropCaselessMatch] at h
      by_cases hc : x.toLower = c.toLower
      · rw [if_pos hc] at h
        exact le_trans (ih cs r h) (Nat.le_succ _)
      · rw [if_neg hc] at h
        exact absurd h Option.noConfusion

lemma findDangerous_length_le (s r : List Char) (h : findDangerous s = some r) :
    r.length ≤ s.length := by
  obtain ⟨p, _, hp⟩ := List.exists_of_findSome?_eq_some h
  exact dropCaselessMatch_length_le p s r hp

lemma stripDangerousAux_length_le :
    ∀ (fuel : Nat) (s : List Char), (stripDangerousAux fuel s).length ≤ s.length := by
  intro fuel
  induction fuel with
  | zero => intro s; simp [stripDangerousAux]
  | succ n ih =>
    intro s
    cases s with
    | nil => simp [stripDangerousAux]
    | cons c rest =>
      rw [stripDangerousAux]
      cases hf : findDangerous (c :: rest) with
      | some rest2 =>
        exact le_trans (ih rest2) (findDangerous_length_le _ _ hf)
      | none =>
        simpa using ih rest

lemma findDangerous_cons_a (l : List Char) : findDangerous ('a' :: l) = none := rfl

lemma stripDangerousAux_replicate_a :
    ∀ n, stripDangerousAux n (List.replicate n 'a') = List.replicate n 'a' := by
  intro n
  induction n with
  | zero => rfl
  | succ m ih =>
    rw [List.replicate_succ, stripDangerousAux, findDangerous_cons_a, ih]

lemma dropWhile_replicate_a (n : Nat) :
    (List.replicate n 'a').dropWhile jsWhitespaceChar = List.replicate n 'a' := by
  induction n with
  | zero => rfl
  | succ m ih => rw [List.replicate_succ, List.dropWhile_cons]; simp [jsWhitespaceChar]

lemma trimChars_replicate_a (n : Nat) :
    trimChars (List.replicate n 'a') = List.replicate n 'a' := by
  rw [trimChars, dropWhile_replicate_a, List.reverse_replicate, dropWhile_replicate_a,
    List.reverse_replicate]

/-- C8: the sanitizer is total by construction and meets its postconditions:
every non-string input (null, undefined, other) yields ""; the output length
never exceeds maxLength; the script-tag example leaves no script-tag opening
substring; 10000 letters a at maxLength 5000 come out with length exactly
5000; and surrounding whitespace is trimmed. -/
theorem sanitizeTextInput_postconditions :
    (∀ ml, sanitizeTextInput JsInput.nullValue ml = "" ∧
      sanitizeTextInput JsInput.undefinedValue ml = "" ∧
      sanitizeTextInput JsInput.otherValue ml = "") ∧
    (∀ s ml, (sanitizeTextInput (JsInput.str s) ml).length ≤ ml) ∧
    containsChars ['<', 's', 'c', 'r', 'i', 'p', 't']
      (sanitizeTextInput (JsInput.str "<script>alert(1)</script>hello") 5000).data
      = false ∧
    (sanitizeTextInput (JsInput.str (String.mk (List.replicate 10000 'a'))) 5000).length
      = 5000 ∧
    sanitizeTextInput (JsInput.str "  hi  ") 5000 = "hi" := by
  refine ⟨fun ml => ⟨rfl, rfl, rfl⟩, ?_, by decide, ?_, by decide⟩
  · intro s ml
    rw [sanitizeTextInput]
    by_cases hs : s = ""
    · rw [if_pos hs]
      exact Nat.zero_le _
    · rw [if_neg hs]
      show (stripDangerous ((trimChars s.data).take ml)).length ≤ ml
      calc (stripDangerous ((trimChars s.data).take ml)).length
          ≤ ((trimChars s.data).take ml).length := stripDangerousAux_length_le _ _
        _ ≤ ml := by rw [List.length_take]; exact Nat.min_le_left _ _
  · rw [sanitizeTextInput]
    rw [if_neg (show String.mk (List.replicate 10000 'a') ≠ "" from fun h => by
      have h2 : List.replicate 10000 'a' = ([] : List Char) := congrArg String.data h
      rw [List.replicate_eq_nil_iff] at h2
      exact absurd h2 (by decide))]
    show (stripDangerous ((trimChars (String.mk (List.replicate 10000 'a')).data).take
      5000)).length = 5000
    rw [show (String.mk (List.replicate 10000 'a')).data = List.replicate 10000 'a'
        from rfl,
      trimChars_replicate_a, List.take_replicate]
    rw [show min 5000 10000 = 5000 from rfl, stripDangerous, List.length_replicate,
      stripDangerousAux_replicate_a, List.length_replicate]

/-- C10: the single-pass deletion can splice fragments into a banned
substring: on the input built from scr, a nested script-tag opening and ipt,
the sanitizer deletes the embedded occurrence and the output is exactly the
script-tag opening, which it therefore still contains. -/
theorem sanitizer_single_pass_splice :
    sanitizeTextInput (JsInput.str "<scr<scriptipt") 5000 = "<script" ∧
    containsChars ['<', 's', 'c', 'r', 'i', 'p', 't']
      (sanitizeTextInput (JsInput.str "<scr<scriptipt") 5000).data = true := by
  constructor <;> decide

end Satchari
